import Mathlib

/-!
# Verification of the sonja-games backend core logic

Shallow embedding of the core game logic of the `sonja-games` backend
(Wordle letter feedback, daily-word selection, Wordle session state machine,
crossword grid checking and hints, statistics aggregation), together with
proofs of the specified properties.

Conventions of the embedding:
* Python strings become `List Char` (or `String` for crossword grid cells).
* Machine-independent Python integers become `Nat`/`Int`; 32-bit arithmetic
  inside SHA-256 is `Nat` arithmetic reduced `% 2 ^ 32`.
* Fallible service functions return `Except`; raising an exception is
  returning `.error e`, which carries no updated session, so the stored
  state is unchanged by construction.
* Database reads that merely fetch the session / puzzle row are replaced by
  passing the session / puzzle value directly; nullable JSON columns that the
  code reads through `x or []` are modelled as plain lists where the empty
  list stands for NULL.
-/

namespace SonjaGames

namespace Wordle

/-- Embeds `LetterStatus` from `app/games/wordle/schemas.py`:
status of a letter in a guess (correct / present / absent). -/
inductive LetterStatus where
  | correct
  | present
  | absent
deriving DecidableEq, Repr

/-- Embeds `LetterResult` from `app/games/wordle/schemas.py`:
feedback for a single letter of a guess. -/
structure LetterResult where
  letter : Char
  status : LetterStatus
deriving DecidableEq, Repr

/-- First pass of `WordService.check_guess` (`word_service.py`): walk guess and
answer in lockstep; exact matches are marked `correct` and the matched answer
letter is consumed (set to `none` in the remaining-letters list).  Returns the
per-position mark (`some` result or `none` for "not yet marked") and the
remaining answer letters. -/
def pass1 : List Char → List Char → List (Option LetterResult) × List (Option Char)
  | g :: gs, a :: as =>
    let rest := pass1 gs as
    if g = a then
      (some ⟨g, LetterStatus.correct⟩ :: rest.1, none :: rest.2)
    else
      (none :: rest.1, some a :: rest.2)
  | _, _ => ([], [])

/-- Embeds `answer_letters[answer_letters.index(c)] = None` of `check_guess`:
consume the first remaining occurrence of `c`. -/
def markFirst (c : Char) : List (Option Char) → List (Option Char)
  | [] => []
  | x :: xs => if x = some c then none :: xs else x :: markFirst c xs

/-- Second pass of `WordService.check_guess`: positions already marked keep
their mark; otherwise the letter is `present` if it is among the remaining
answer letters (consuming one occurrence) and `absent` otherwise. -/
def pass2 : List Char → List (Option LetterResult) → List (Option Char) → List LetterResult
  | g :: gs, r :: rs, letters =>
    match r with
    | some res => res :: pass2 gs rs letters
    | none =>
      if some g ∈ letters then
        ⟨g, LetterStatus.present⟩ :: pass2 gs rs (markFirst g letters)
      else
        ⟨g, LetterStatus.absent⟩ :: pass2 gs rs letters
  | _, _, _ => []

/-- Embeds `WordService.check_guess` (`word_service.py`, lines 74-125): both
words are lower-cased, the first pass marks exact matches and consumes the
matched answer letters, the second pass marks present/absent letters. -/
def check_guess (guess answer : List Char) : List LetterResult :=
  let g := guess.map Char.toLower
  let a := answer.map Char.toLower
  let p := pass1 g a
  pass2 g p.1 p.2

/-- Number of positions of a feedback list marked Correct-or-Present for the
letter value `c`. -/
def marksFor (c : Char) : List LetterResult → Nat
  | [] => 0
  | r :: rs =>
    (if r.letter = c ∧ r.status ≠ LetterStatus.absent then 1 else 0) + marksFor c rs

/-- Correct-or-Present marks among the (optional) marks produced by the first
pass. -/
def optMarksFor (c : Char) : List (Option LetterResult) → Nat
  | [] => 0
  | none :: rs => optMarksFor c rs
  | some r :: rs =>
    (if r.letter = c ∧ r.status ≠ LetterStatus.absent then 1 else 0) + optMarksFor c rs

/-- Number of remaining (unconsumed) occurrences of `c` in the
remaining-answer-letters list. -/
def remCount (c : Char) : List (Option Char) → Nat
  | [] => 0
  | x :: xs => (if x = some c then 1 else 0) + remCount c xs

/-! ## Wordle session state machine (`app/games/wordle/service.py`) -/

/-- Embeds `WordleGameSession` (`app/games/wordle/models.py`), keeping the
fields the session logic reads and writes.  `completed` stands for
`completed_at is not None`; the nullable `guess_results` JSON column is
modelled as a list, the empty list standing for NULL (the code only reads it
through `session.guess_results or []`). -/
structure GameSession where
  guesses : List (List Char)
  guess_results : List (List LetterResult)
  won : Bool
  attempts_used : Nat
  completed : Bool
deriving DecidableEq, Repr

/-- Embeds the `GuessResult` response schema (`app/games/wordle/schemas.py`). -/
structure GuessResult where
  guess : List Char
  result : List LetterResult
  is_correct : Bool
  attempts_used : Nat
  game_over : Bool
  won : Option Bool
  answer : Option (List Char)
deriving DecidableEq, Repr

/-- The `ValueError` conditions raised by `submit_guess` (`service.py`), plus
the rejection performed by the Pydantic `GuessSubmission` schema before the
service is reached. -/
inductive WordleError where
  | sessionNotFound
  | alreadyCompleted
  | invalidWord
  | challengeNotFound
  | validationRejected
deriving DecidableEq, Repr

/-- Embeds `WordService.is_valid_word` (`word_service.py`, lines 32-42):
membership of the lower-cased word in the valid-guess vocabulary. -/
def is_valid_word (valid_guesses : List (List Char)) (word : List Char) : Bool :=
  decide (word.map Char.toLower ∈ valid_guesses)

/-- Embeds the session constructed by `start_daily_challenge` (`service.py`,
lines 75-87): `guesses=[]`, `won=False`, `attempts_used=0`, not completed;
`guess_results` starts as NULL, modelled as `[]`. -/
def newSession : GameSession :=
  { guesses := []
    guess_results := []
    won := false
    attempts_used := 0
    completed := false }

/-- Embeds `submit_guess` (`service.py`, lines 90-176).  The database lookups
of the session and its daily challenge are replaced by passing the session and
the challenge's answer word directly (`sessionNotFound` / `challengeNotFound`
cannot occur in the embedding).  The function rejects a completed session,
rejects a word outside the vocabulary, computes the feedback, appends the
lower-cased guess and its feedback, increments `attempts_used`, and completes
the session on an all-Correct guess or on reaching 6 attempts. -/
def submit_guess (valid_guesses : List (List Char)) (answer : List Char)
    (session : GameSession) (guess : List Char) :
    Except WordleError (GameSession × GuessResult) :=
  if session.completed then
    .error .alreadyCompleted
  else
    let guess := guess.map Char.toLower
    if ¬ is_valid_word valid_guesses guess then
      .error .invalidWord
    else
      let feedback := check_guess guess answer
      let s1 : GameSession :=
        { session with
            guesses := session.guesses ++ [guess]
            attempts_used := session.attempts_used + 1
            guess_results := session.guess_results ++ [feedback] }
      let is_correct := feedback.all fun lr => lr.status == LetterStatus.correct
      if is_correct then
        .ok ({ s1 with won := true, completed := true },
          { guess := guess, result := feedback, is_correct := is_correct,
            attempts_used := s1.attempts_used, game_over := true,
            won := some true, answer := some answer })
      else if s1.attempts_used ≥ 6 then
        .ok ({ s1 with won := false, completed := true },
          { guess := guess, result := feedback, is_correct := is_correct,
            attempts_used := s1.attempts_used, game_over := true,
            won := some false, answer := some answer })
      else
        .ok (s1,
          { guess := guess, result := feedback, is_correct := is_correct,
            attempts_used := s1.attempts_used, game_over := false,
            won := none, answer := none })

/-- The character class `[a-zA-Z]` of the `GuessSubmission` pattern. -/
def isAsciiLetter (c : Char) : Bool :=
  ('a' ≤ c && c ≤ 'z') || ('A' ≤ c && c ≤ 'Z')

/-- Embeds the Pydantic `GuessSubmission` request schema
(`app/games/wordle/schemas.py`, line 34): `min_length=5, max_length=5,
pattern="^[a-zA-Z]{5}$"`. -/
def guessSubmissionValid (g : List Char) : Bool :=
  g.length == 5 && g.all isAsciiLetter

/-- The guess-submission endpoint as seen by a client: the Pydantic schema
rejects malformed guesses before `service.submit_guess` runs
(`router.py` / `schemas.py`). -/
def submit_guess_endpoint (valid_guesses : List (List Char)) (answer : List Char)
    (session : GameSession) (guess : List Char) :
    Except WordleError (GameSession × GuessResult) :=
  if ¬ guessSubmissionValid guess then
    .error .validationRejected
  else
    submit_guess valid_guesses answer session guess

/-- Sessions reachable from session creation by accepted guesses (C9). -/
inductive Reachable (valid_guesses : List (List Char)) (answer : List Char) :
    GameSession → Prop where
  | start : Reachable valid_guesses answer newSession
  | step (s s' : GameSession) (guess : List Char) (r : GuessResult) :
      Reachable valid_guesses answer s →
      submit_guess valid_guesses answer s guess = .ok (s', r) →
      Reachable valid_guesses answer s'

/-! Concrete fixtures used by the witness theorems. -/

def exampleAnswer : List Char := ['c', 'r', 'a', 'n', 'e']

def exampleVocab : List (List Char) := [exampleAnswer]

def exampleWinFeedback : List LetterResult :=
  [⟨'c', LetterStatus.correct⟩, ⟨'r', LetterStatus.correct⟩,
   ⟨'a', LetterStatus.correct⟩, ⟨'n', LetterStatus.correct⟩,
   ⟨'e', LetterStatus.correct⟩]

/-- The session obtained by guessing "crane" against answer "crane" on a
fresh session. -/
def exampleWonSession : GameSession :=
  { guesses := [exampleAnswer]
    guess_results := [exampleWinFeedback]
    won := true
    attempts_used := 1
    completed := true }

/-- The `GuessResult` returned for that winning guess. -/
def exampleWinResult : GuessResult :=
  { guess := exampleAnswer
    result := exampleWinFeedback
    is_correct := true
    attempts_used := 1
    game_over := true
    won := some true
    answer := some exampleAnswer }

end Wordle

/-! ## SHA-256 (`hashlib.sha256`), as used by `get_daily_word`

A byte-level embedding of SHA-256 over `List Nat` (each entry a byte),
with 32-bit words represented as `Nat` reduced `% 2 ^ 32`. -/

namespace SHA256

/-- Right rotation of a 32-bit word. -/
def rotr (x n : Nat) : Nat :=
  ((x >>> n) ||| (x <<< (32 - n))) % 2 ^ 32

/-- Bitwise complement of a 32-bit word. -/
def compl32 (x : Nat) : Nat :=
  x ^^^ 0xffffffff

def ch (x y z : Nat) : Nat := (x &&& y) ^^^ (compl32 x &&& z)

def maj (x y z : Nat) : Nat := (x &&& y) ^^^ (x &&& z) ^^^ (y &&& z)

def bsig0 (x : Nat) : Nat := rotr x 2 ^^^ rotr x 13 ^^^ rotr x 22

def bsig1 (x : Nat) : Nat := rotr x 6 ^^^ rotr x 11 ^^^ rotr x 25

def ssig0 (x : Nat) : Nat := rotr x 7 ^^^ rotr x 18 ^^^ (x >>> 3)

def ssig1 (x : Nat) : Nat := rotr x 17 ^^^ rotr x 19 ^^^ (x >>> 10)

/-- The 64 SHA-256 round constants (FIPS 180-4, written in decimal). -/
def K : List Nat :=
  [1116352408, 1899447441, 3049323471, 3921009573, 961987163,
   1508970993, 2453635748, 2870763221, 3624381080, 310598401,
   607225278, 1426881987, 1925078388, 2162078206, 2614888103,
   3248222580, 3835390401, 4022224774, 264347078, 604807628,
   770255983, 1249150122, 1555081692, 1996064986, 2554220882,
   2821834349, 2952996808, 3210313671, 3336571891, 3584528711,
   113926993, 338241895, 666307205, 773529912, 1294757372,
   1396182291, 1695183700, 1986661051, 2177026350, 2456956037,
   2730485921, 2820302411, 3259730800, 3345764771, 3516065817,
   3600352804, 4094571909, 275423344, 430227734, 506948616,
   659060556, 883997877, 958139571, 1322822218, 1537002063,
   1747873779, 1955562222, 2024104815, 2227730452, 2361852424,
   2428436474, 2756734187, 3204031479, 3329325298]

/-- The SHA-256 initial hash value (FIPS 180-4, written in decimal). -/
def H0 : List Nat :=
  [1779033703, 3144134277, 1013904242, 2773480762,
   1359893119, 2600822924, 528734635, 1541459225]

/-- Big-endian 8-byte encoding of a `Nat` (the message bit length). -/
def lenBytes (n : Nat) : List Nat :=
  [n / 2 ^ 56 % 256, n / 2 ^ 48 % 256, n / 2 ^ 40 % 256, n / 2 ^ 32 % 256,
   n / 2 ^ 24 % 256, n / 2 ^ 16 % 256, n / 2 ^ 8 % 256, n % 256]

/-- SHA-256 padding: append `0x80`, zero bytes up to 56 mod 64, then the
64-bit big-endian bit length. -/
def pad (msg : List Nat) : List Nat :=
  let zeros := (56 + 64 - (msg.length + 1) % 64) % 64
  msg ++ 0x80 :: List.replicate zeros 0 ++ lenBytes (msg.length * 8)

/-- Split a byte list into 64-byte chunks. -/
def chunk64 (l : List Nat) : List (List Nat) :=
  if l.isEmpty then []
  else l.take 64 :: chunk64 (l.drop 64)
termination_by l.length
decreasing_by
  simp only [List.length_drop]
  cases l with
  | nil => simp [List.isEmpty] at *
  | cons x xs => simp; omega

/-- Combine bytes into 32-bit big-endian words. -/
def bytesToWords : List Nat → List Nat
  | b0 :: b1 :: b2 :: b3 :: rest =>
    (((b0 * 256 + b1) * 256 + b2) * 256 + b3) :: bytesToWords rest
  | _ => []

/-- Extend 16 message-schedule words to 64. -/
def schedule (block : List Nat) : List Nat :=
  (List.range 48).foldl
    (fun w _ =>
      let n := w.length
      w ++ [(ssig1 (w.getD (n - 2) 0) + w.getD (n - 7) 0 +
             ssig0 (w.getD (n - 15) 0) + w.getD (n - 16) 0) % 2 ^ 32])
    block

/-- One round of the SHA-256 compression function on the 8-word state. -/
def compressRound (st : List Nat) (kw : Nat × Nat) : List Nat :=
  match st with
  | [a, b, c, d, e, f, g, h] =>
    let t1 := (h + bsig1 e + ch e f g + kw.1 + kw.2) % 2 ^ 32
    let t2 := (bsig0 a + maj a b c) % 2 ^ 32
    [(t1 + t2) % 2 ^ 32, a, b, c, (d + t1) % 2 ^ 32, e, f, g]
  | _ => st

/-- Process one 512-bit block. -/
def processBlock (h : List Nat) (block : List Nat) : List Nat :=
  let w := schedule (bytesToWords block)
  let st := (K.zip w).foldl compressRound h
  (h.zip st).map fun p => (p.1 + p.2) % 2 ^ 32

/-- Big-endian 4-byte decomposition of a 32-bit word. -/
def wordToBytes (w : Nat) : List Nat :=
  [w / 2 ^ 24 % 256, w / 2 ^ 16 % 256, w / 2 ^ 8 % 256, w % 256]

/-- SHA-256 digest of a byte message, as a list of 32 bytes. -/
def sha256 (msg : List Nat) : List Nat :=
  ((chunk64 (pad msg)).foldl processBlock H0).flatMap wordToBytes

/-- One hexadecimal digit (lowercase, as Python's `hexdigest`). -/
def hexChar (n : Nat) : Char :=
  if n < 10 then Char.ofNat (48 + n) else Char.ofNat (87 + n)

/-- Two-character hex representation of a byte. -/
def byteToHex (b : Nat) : List Char :=
  [hexChar (b / 16), hexChar (b % 16)]

/-- Embeds `hashlib.sha256(...).hexdigest()`: lowercase hex string of the digest. -/
def hexdigest (bytes : List Nat) : List Char :=
  bytes.flatMap byteToHex

/-- Python's `int(s, 16)` on a lowercase hex string. -/
def hexVal (c : Char) : Nat :=
  if '0' ≤ c ∧ c ≤ '9' then c.toNat - 48
  else if 'a' ≤ c ∧ c ≤ 'f' then c.toNat - 87
  else 0

def hexToNat (s : List Char) : Nat :=
  s.foldl (fun acc c => acc * 16 + hexVal c) 0

end SHA256

namespace Wordle

/-- A Python `datetime.date` (year, month, day). -/
structure PyDate where
  year : Nat
  month : Nat
  day : Nat
deriving DecidableEq, Repr

/-- Zero-padded two-digit decimal rendering, as in ISO dates. -/
def pad2 (n : Nat) : List Char :=
  if n < 10 then '0' :: Nat.toDigits 10 n else Nat.toDigits 10 n

/-- Embeds `date.isoformat()`: `YYYY-MM-DD` (years in 1000..9999 render with four
digits). -/
def isoformat (d : PyDate) : List Char :=
  Nat.toDigits 10 d.year ++ '-' :: (pad2 d.month ++ '-' :: pad2 d.day)

/-- UTF-8 bytes of an ASCII string (all inputs here are ASCII). -/
def strBytes (s : List Char) : List Nat :=
  s.map Char.toNat

/-- Embeds `WordService.get_daily_word` (`word_service.py`, lines 44-71):
hash the ISO date string, a `:` separator and the secret with SHA-256, parse
the first 8 hex characters of the hexdigest as an integer, and index the
answers pool with that integer modulo the pool size.  Python would raise on an
empty pool; the embedding totalizes with `getD`. -/
def get_daily_word (answers : List (List Char)) (secret : List Char)
    (target_date : PyDate) : List Char :=
  let date_str := isoformat target_date
  let hash_input := strBytes (date_str ++ ':' :: secret)
  let hash_digest := SHA256.hexdigest (SHA256.sha256 hash_input)
  let hash_int := SHA256.hexToNat (hash_digest.take 8)
  let index := hash_int % answers.length
  answers.getD index []

/-- Variant A of the spec, written from the spec's words: the index into the
answers pool is the integer value of the first 8 hex characters of SHA-256 of
the ISO date string, a ":" separator and the secret, taken modulo the pool
size. -/
def dailyAnswerVariantA (answers : List (List Char)) (secret : List Char)
    (d : PyDate) : List Char :=
  answers.getD
    (SHA256.hexToNat
      ((SHA256.hexdigest (SHA256.sha256 (strBytes (isoformat d ++ ':' :: secret)))).take 8) %
      answers.length) []

/-! ## Wordle statistics (`service.py`, `get_user_stats`, lines 179-260) -/

/-- A completed session row as the statistics query sees it: the date of the
session's daily challenge (as a day ordinal, so that Python's
`(d2 - d1).days` is plain `Int` subtraction), whether it was won, and the
attempts used. -/
structure StatsSession where
  challenge_date : Int
  won : Bool
  attempts_used : Nat
deriving DecidableEq, Repr

/-- Embeds the `WordleStats` response schema.  `win_percentage` is computed in
exact rational arithmetic; the code computes the same value in floating point
and rounds to two decimals. -/
structure WordleStats where
  total_games : Nat
  wins : Nat
  losses : Nat
  win_percentage : Rat
  current_streak : Nat
  max_streak : Nat
  guess_distribution : List Nat
deriving DecidableEq, Repr

/-- The guess-distribution loop of `get_user_stats`: bucket `attempts_used - 1`
is incremented for each won session with `1 <= attempts_used <= 6`. -/
def guessDistribution (sessions : List StatsSession) : List Nat :=
  sessions.foldl
    (fun dist s =>
      if s.won ∧ 1 ≤ s.attempts_used ∧ s.attempts_used ≤ 6 then
        dist.set (s.attempts_used - 1) (dist.getD (s.attempts_used - 1) 0 + 1)
      else dist)
    [0, 0, 0, 0, 0, 0]

/-- The streak loop of `get_user_stats`, walking sessions in challenge-date
order and threading `(temp_streak, max_streak, prev_date)`. -/
def streakWalk (sessions : List StatsSession) : Nat × Nat × Option Int :=
  sessions.foldl
    (fun acc s =>
      let temp := acc.1
      let mx := acc.2.1
      let prev := acc.2.2
      if s.won then
        let consecutive : Bool :=
          match prev with
          | none => true
          | some p => s.challenge_date - p == 1
        let temp' := if consecutive then temp + 1 else 1
        (temp', max mx temp', some s.challenge_date)
      else
        (0, mx, some s.challenge_date))
    (0, 0, none)

/-- Embeds `get_user_stats` (`service.py`, lines 179-260).  The database
queries are replaced by the list of the user's completed sessions ordered by
challenge date (the totals are order-independent; the streak walk follows the
date order just as the code's `ORDER BY date` query does), and `date.today()`
by the `today` ordinal. -/
def get_user_stats (today : Int) (sessions_by_date : List StatsSession) :
    WordleStats :=
  let total_games := sessions_by_date.length
  let wins := (sessions_by_date.filter fun s => s.won).length
  let losses := total_games - wins
  let win_percentage : Rat :=
    if total_games > 0 then (wins : Rat) / (total_games : Rat) * 100 else 0
  let walk := streakWalk sessions_by_date
  let current_streak :=
    match sessions_by_date.getLast? with
    | none => 0
    | some last =>
      if last.won ∧ today - last.challenge_date ≤ 1 then walk.1 else 0
  { total_games := total_games
    wins := wins
    losses := losses
    win_percentage := win_percentage
    current_streak := current_streak
    max_streak := walk.2.1
    guess_distribution := guessDistribution sessions_by_date }

end Wordle

/-! ## Crossword service (`app/games/crossword/service.py`)

Grid cells are Python strings: `"."` is a blocked (black) cell, letters are
single-character strings, `""` is an empty user cell.  The `current_grid`
JSON blob `{"grid": [...]}` is modelled by its `"grid"` entry directly. -/

namespace Crossword

/-- The `CrosswordServiceError` hierarchy of `service.py`, plus the plain
`ValueError` raised for out-of-bounds or blocked cells. -/
inductive CrosswordError where
  | puzzleNotFound
  | sessionNotFound
  | sessionAlreadyCompleted
  | valueError
deriving DecidableEq, Repr

/-- Embeds `CrosswordDailyPuzzle` (`app/games/crossword/models.py`): the
solution grid and the numbered across/down answers (JSON dicts, modelled as
association lists). -/
structure CrosswordDailyPuzzle where
  grid_data : List (List String)
  answers_across : List (String × String)
  answers_down : List (String × String)
deriving DecidableEq, Repr

/-- Embeds `CrosswordGameSession` (`models.py` plus the columns used by
`service.py`).  `completed` stands for the boolean column; `completed_at` is
subsumed by it. -/
structure CrosswordGameSession where
  current_grid : List (List String)
  completed : Bool
  completion_time_seconds : Option Nat
  revealed_cells : List (Nat × Nat)
  hints_used : Nat
  revealed_all : Bool
deriving DecidableEq, Repr

/-- The empty user grid built by `start_daily_challenge` (`service.py`, lines
86-95): black cells stay `"."`, letter cells start as `""`. -/
def emptyGrid (grid_data : List (List String)) : List (List String) :=
  grid_data.map fun row => row.map fun cell => if cell = "." then "." else ""

/-- Embeds the session created by `start_daily_challenge` (`service.py`,
lines 97-106). -/
def newCrosswordSession (puzzle : CrosswordDailyPuzzle) : CrosswordGameSession :=
  { current_grid := emptyGrid puzzle.grid_data
    completed := false
    completion_time_seconds := none
    revealed_cells := []
    hints_used := 0
    revealed_all := false }

/-- Embeds `update_session` (`service.py`, lines 116-153): save the user's
grid, rejecting a completed session. -/
def update_session (session : CrosswordGameSession)
    (grid_data : List (List String)) :
    Except CrosswordError CrosswordGameSession :=
  if session.completed then
    .error .sessionAlreadyCompleted
  else
    .ok { session with current_grid := grid_data }

/-- Python's `str.upper()` on the ASCII strings that fill the grids
(`String.toUpper`, written through the underlying character list so that it
evaluates by kernel reduction). -/
def pyUpper (s : String) : String :=
  ⟨s.data.map Char.toUpper⟩

/-- The user-grid read `user_grid[i][j] if i < len(user_grid) and
j < len(user_grid[i]) else ""` from `check_answers`. -/
def userCellAt (user_grid : List (List String)) (i j : Nat) : String :=
  (user_grid.getD i []).getD j ""

/-- The cell-by-cell comparison loop of `check_answers` (`service.py`, lines
259-271): a blocked solution cell (`"."`) is skipped; every other cell must
match the user's letter case-insensitively. -/
def all_cells_correct (correct_grid user_grid : List (List String)) : Bool :=
  (List.range correct_grid.length).all fun i =>
    (List.range (correct_grid.getD i []).length).all fun j =>
      let correct_cell := (correct_grid.getD i []).getD j ""
      correct_cell == "." || pyUpper (userCellAt user_grid i j) == pyUpper correct_cell

/-- The result dict of `check_answers`. -/
structure CheckAnswersResult where
  correct_across : List (String × Bool)
  correct_down : List (String × Bool)
  all_correct : Bool
deriving DecidableEq, Repr

/-- Embeds `check_answers` (`service.py`, lines 211-284).  Note: the code has
NO completed-session guard here (its docstring lists only
`SessionNotFoundError`).  Every per-word flag is initialized `False` and set
`True` exactly when the whole grid matches, so each flag equals
`all_cells_correct`. -/
def check_answers (puzzle : CrosswordDailyPuzzle)
    (session : CrosswordGameSession) :
    Except CrosswordError CheckAnswersResult :=
  let user_grid := session.current_grid
  let acc := all_cells_correct puzzle.grid_data user_grid
  .ok
    { correct_across := puzzle.answers_across.map fun p => (p.1, acc)
      correct_down := puzzle.answers_down.map fun p => (p.1, acc)
      all_correct := acc }

/-- Embeds `complete_session` (`service.py`, lines 287-326). -/
def complete_session (session : CrosswordGameSession)
    (completion_time_seconds : Nat) :
    Except CrosswordError CrosswordGameSession :=
  if session.completed then
    .error .sessionAlreadyCompleted
  else
    .ok { session with
            completed := true
            completion_time_seconds := some completion_time_seconds }

/-- Embeds `reveal_cell` (`service.py`, lines 329-395): rejects a completed
session; `ValueError` on an out-of-bounds position (`row < 0` is
unrepresentable with `Nat` indices) or a blocked cell; appends the cell to
`revealed_cells` and increments `hints_used` only if the cell was not already
revealed; writes the solution letter into the user's grid when the position
is inside it. -/
def reveal_cell (puzzle : CrosswordDailyPuzzle) (session : CrosswordGameSession)
    (row col : Nat) :
    Except CrosswordError (String × CrosswordGameSession) :=
  if session.completed then
    .error .sessionAlreadyCompleted
  else
    let grid := puzzle.grid_data
    if row ≥ grid.length ∨ col ≥ (grid.getD row []).length then
      .error .valueError
    else
      let correct_letter := (grid.getD row []).getD col ""
      if correct_letter = "." then
        .error .valueError
      else
        let cell_pos := (row, col)
        let session1 :=
          if cell_pos ∉ session.revealed_cells then
            { session with
                revealed_cells := session.revealed_cells ++ [cell_pos]
                hints_used := session.hints_used + 1 }
          else
            session
        let user_grid := session1.current_grid
        let session2 :=
          if row < user_grid.length ∧ col < (user_grid.getD row []).length then
            { session1 with
                current_grid :=
                  user_grid.set row ((user_grid.getD row []).set col correct_letter) }
          else
            session1
        .ok (correct_letter, session2)

/-- Embeds `check_cell` (`service.py`, lines 398-455): rejects a completed
session; `ValueError` on out-of-bounds or blocked cells; compares the letter
case-insensitively and always increments `hints_used`. -/
def check_cell (puzzle : CrosswordDailyPuzzle) (session : CrosswordGameSession)
    (row col : Nat) (letter : String) :
    Except CrosswordError (Bool × CrosswordGameSession) :=
  if session.completed then
    .error .sessionAlreadyCompleted
  else
    let grid := puzzle.grid_data
    if row ≥ grid.length ∨ col ≥ (grid.getD row []).length then
      .error .valueError
    else
      let correct_letter := (grid.getD row []).getD col ""
      if correct_letter = "." then
        .error .valueError
      else
        let is_correct := pyUpper letter == pyUpper correct_letter
        .ok (is_correct, { session with hints_used := session.hints_used + 1 })

/-- The `complete_data` dict returned by `reveal_all`. -/
structure RevealAllData where
  complete_grid : List (List String)
  answers_across : List (String × String)
  answers_down : List (String × String)
deriving DecidableEq, Repr

/-- Embeds `reveal_all` (`service.py`, lines 458-505): rejects a completed
session; flags `revealed_all`, counts one hint, and replaces the user's grid
with the full solution. -/
def reveal_all (puzzle : CrosswordDailyPuzzle) (session : CrosswordGameSession) :
    Except CrosswordError (RevealAllData × CrosswordGameSession) :=
  if session.completed then
    .error .sessionAlreadyCompleted
  else
    let session1 :=
      { session with
          revealed_all := true
          hints_used := session.hints_used + 1
          current_grid := puzzle.grid_data }
    .ok
      ({ complete_grid := puzzle.grid_data
         answers_across := puzzle.answers_across
         answers_down := puzzle.answers_down }, session1)

/-! Concrete fixtures used by the crossword witness theorems. -/

/-- A 2x2 puzzle with one blocked cell at (1, 1). -/
def examplePuzzle : CrosswordDailyPuzzle :=
  { grid_data := [["A", "B"], ["C", "."]]
    answers_across := [("1", "AB")]
    answers_down := [("1", "AC")] }

/-- A fresh (active) session on `examplePuzzle`. -/
def exampleActiveSession : CrosswordGameSession :=
  newCrosswordSession examplePuzzle

/-- A completed session on `examplePuzzle`. -/
def exampleDoneSession : CrosswordGameSession :=
  { current_grid := [["", ""], ["", "."]]
    completed := true
    completion_time_seconds := some 42
    revealed_cells := []
    hints_used := 0
    revealed_all := false }

/-- The session obtained by revealing cell (0, 0) of `exampleActiveSession`. -/
def exampleRevealedSession : CrosswordGameSession :=
  { current_grid := [["A", ""], ["", "."]]
    completed := false
    completion_time_seconds := none
    revealed_cells := [(0, 0)]
    hints_used := 1
    revealed_all := false }

end Crossword

end SonjaGames

/-!
## Theorems

Helper lemmas first, then one theorem per claim (with a witness when the
theorem carries hypotheses).
-/

namespace SonjaGames

open Wordle

theorem pass1_count (c : Char) :
    ∀ gs as : List Char, gs.length = as.length →
      optMarksFor c (pass1 gs as).1 + remCount c (pass1 gs as).2 = as.count c := by
  intro gs
  induction gs with
  | nil =>
    intro as h
    cases as with
    | nil => simp [pass1, optMarksFor, remCount]
    | cons a as => simp at h
  | cons g gs ih =>
    intro as h
    cases as with
    | nil => simp at h
    | cons a as =>
      have hlen : gs.length = as.length := by simpa using h
      have ihr := ih as hlen
      by_cases hga : g = a
      · subst hga
        by_cases hc : g = c
        · subst hc
          simp [pass1, optMarksFor, remCount, List.count_cons]
          omega
        · simp [pass1, optMarksFor, remCount, List.count_cons, hc]
          omega
      · by_cases hac : a = c
        · subst hac
          simp [pass1, hga, optMarksFor, remCount, List.count_cons]
          omega
        · simp [pass1, hga, optMarksFor, remCount, List.count_cons, hac]
          omega

theorem markFirst_remCount_self (c : Char) :
    ∀ letters : List (Option Char), some c ∈ letters →
      remCount c (markFirst c letters) + 1 = remCount c letters := by
  intro letters
  induction letters with
  | nil => intro h; simp at h
  | cons x xs ih =>
    intro h
    by_cases hx : x = some c
    · subst hx
      simp [markFirst, remCount]
      omega
    · have hmem : some c ∈ xs := by
        rcases List.mem_cons.mp h with h1 | h1
        · exact absurd h1.symm hx
        · exact h1
      simp only [markFirst, if_neg hx, remCount]
      have := ih hmem
      omega

theorem markFirst_remCount_ne (g c : Char) (hgc : g ≠ c) :
    ∀ letters : List (Option Char),
      remCount c (markFirst g letters) = remCount c letters := by
  intro letters
  induction letters with
  | nil => rfl
  | cons x xs ih =>
    by_cases hx : x = some g
    · subst hx
      simp only [markFirst, if_pos rfl, remCount]
      rw [if_neg (by simp), if_neg (by simp [hgc])]
    · simp only [markFirst, if_neg hx, remCount, ih]

theorem pass2_bound (c : Char) :
    ∀ (gs : List Char) (rs : List (Option LetterResult)) (letters : List (Option Char)),
      marksFor c (pass2 gs rs letters) ≤ optMarksFor c rs + remCount c letters := by
  intro gs
  induction gs with
  | nil =>
    intro rs letters
    simp [pass2, marksFor]
  | cons g gs ih =>
    intro rs letters
    cases rs with
    | nil => simp [pass2, marksFor]
    | cons r rs =>
      cases r with
      | some res =>
        simp only [pass2, marksFor, optMarksFor]
        have := ih rs letters
        omega
      | none =>
        by_cases hmem : some g ∈ letters
        · by_cases hc : g = c
          · subst hc
            have hcons := markFirst_remCount_self g letters hmem
            have := ih rs (markFirst g letters)
            simp [pass2, hmem, marksFor, optMarksFor]
            omega
          · have heq := markFirst_remCount_ne g c hc letters
            have := ih rs (markFirst g letters)
            simp [pass2, hmem, marksFor, optMarksFor, hc, heq]
            omega
        · have := ih rs letters
          simp [pass2, hmem, marksFor, optMarksFor]
          omega

/-- C1: for every guess and answer of length 5 (case-normalized inside
`check_guess`), the feedback marks, for each letter value `c`, a number of
Correct-or-Present positions that never exceeds the count of `c` in the
(lower-cased) answer; concretely, guess "speed" against answer "spade" yields
[Correct, Correct, Present, Absent, Present]. -/
theorem check_guess_duplicate_letter_bound (guess answer : List Char)
    (hg : guess.length = 5) (ha : answer.length = 5) (c : Char) :
    marksFor c (check_guess guess answer) ≤ (answer.map Char.toLower).count c ∧
    check_guess ['s', 'p', 'e', 'e', 'd'] ['s', 'p', 'a', 'd', 'e'] =
      [⟨'s', LetterStatus.correct⟩, ⟨'p', LetterStatus.correct⟩,
       ⟨'e', LetterStatus.present⟩, ⟨'e', LetterStatus.absent⟩,
       ⟨'d', LetterStatus.present⟩] := by
  constructor
  · unfold check_guess
    have hlen : (guess.map Char.toLower).length = (answer.map Char.toLower).length := by
      simp [hg, ha]
    calc
      marksFor c
          (pass2 (guess.map Char.toLower)
            (pass1 (guess.map Char.toLower) (answer.map Char.toLower)).1
            (pass1 (guess.map Char.toLower) (answer.map Char.toLower)).2)
        ≤ optMarksFor c (pass1 (guess.map Char.toLower) (answer.map Char.toLower)).1 +
            remCount c (pass1 (guess.map Char.toLower) (answer.map Char.toLower)).2 :=
        pass2_bound c _ _ _
      _ = (answer.map Char.toLower).count c :=
        pass1_count c (guess.map Char.toLower) (answer.map Char.toLower) hlen
  · decide

/-- C1 witness: instantiation at guess "speed", answer "spade" and letter 'e'
(the duplicated letter): at most one Correct-or-Present 'e' mark, and the
concrete feedback is [Correct, Correct, Present, Absent, Present]. -/
theorem check_guess_duplicate_letter_bound_witness :
    marksFor 'e' (check_guess ['s', 'p', 'e', 'e', 'd'] ['s', 'p', 'a', 'd', 'e']) ≤
      (['s', 'p', 'a', 'd', 'e'].map Char.toLower).count 'e' ∧
    check_guess ['s', 'p', 'e', 'e', 'd'] ['s', 'p', 'a', 'd', 'e'] =
      [⟨'s', LetterStatus.correct⟩, ⟨'p', LetterStatus.correct⟩,
       ⟨'e', LetterStatus.present⟩, ⟨'e', LetterStatus.absent⟩,
       ⟨'d', LetterStatus.present⟩] :=
  check_guess_duplicate_letter_bound ['s', 'p', 'e', 'e', 'd'] ['s', 'p', 'a', 'd', 'e']
    (by decide) (by decide) 'e'

theorem submit_guess_ok_shape (vg : List (List Char)) (answer : List Char)
    (s : GameSession) (guess : List Char) (s' : GameSession) (r : GuessResult)
    (hok : submit_guess vg answer s guess = .ok (s', r)) :
    s'.guesses = s.guesses ++ [guess.map Char.toLower] ∧
    s'.attempts_used = s.attempts_used + 1 ∧
    s'.guess_results = s.guess_results ++ [check_guess (guess.map Char.toLower) answer] := by
  unfold submit_guess at hok
  split at hok
  · exact absurd hok (by simp)
  · dsimp only at hok
    split at hok
    · exact absurd hok (by simp)
    · split at hok
      · simp only [Except.ok.injEq, Prod.mk.injEq] at hok
        obtain ⟨h1, _⟩ := hok
        subst h1
        simp
      · split at hok
        · simp only [Except.ok.injEq, Prod.mk.injEq] at hok
          obtain ⟨h1, _⟩ := hok
          subst h1
          simp
        · simp only [Except.ok.injEq, Prod.mk.injEq] at hok
          obtain ⟨h1, _⟩ := hok
          subst h1
          simp

/-- C2: submitting an accepted guess to an active session (fewer than 6
attempts used) increments the attempt count by one; the session becomes
Completed with `won=true` exactly when the guess scores all-Correct, and
becomes Completed with `won=false` exactly when the attempt count reaches 6
without an all-Correct guess. -/
theorem submit_guess_completion (vg : List (List Char)) (answer : List Char)
    (s : GameSession) (guess : List Char) (s' : GameSession) (r : GuessResult)
    (hact : s.completed = false) (hlt : s.attempts_used < 6)
    (hok : submit_guess vg answer s guess = .ok (s', r)) :
    s'.attempts_used = s.attempts_used + 1 ∧
    ((s'.completed = true ∧ s'.won = true) ↔
      (check_guess (guess.map Char.toLower) answer).all
        (fun lr => lr.status == LetterStatus.correct) = true) ∧
    ((s'.completed = true ∧ s'.won = false) ↔
      ((check_guess (guess.map Char.toLower) answer).all
        (fun lr => lr.status == LetterStatus.correct) = false ∧
        s'.attempts_used = 6)) := by
  unfold submit_guess at hok
  simp only [hact, Bool.false_eq_true, if_false] at hok
  split at hok
  · exact absurd hok (by simp)
  · split at hok
    · rename_i hcor
      simp only [Except.ok.injEq, Prod.mk.injEq] at hok
      obtain ⟨h1, _⟩ := hok
      subst h1
      refine ⟨by simp, by simp [hcor], by simp [hcor]⟩
    · rename_i hcor
      rw [Bool.not_eq_true] at hcor
      split at hok
      · rename_i h6
        simp only [Except.ok.injEq, Prod.mk.injEq] at hok
        obtain ⟨h1, _⟩ := hok
        subst h1
        refine ⟨by simp, by simp [hcor], ?_⟩
        simp only [hcor]
        simp
        omega
      · rename_i h6
        simp only [Except.ok.injEq, Prod.mk.injEq] at hok
        obtain ⟨h1, _⟩ := hok
        subst h1
        refine ⟨by simp, by simp [hact, hcor], ?_⟩
        simp [hact, hcor]
        omega

/-- C2 witness: the winning guess "crane" against answer "crane" on a fresh
session increments the attempt count to 1 and completes the session with
`won=true`. -/
theorem submit_guess_completion_witness :
    exampleWonSession.attempts_used = newSession.attempts_used + 1 ∧
    ((exampleWonSession.completed = true ∧ exampleWonSession.won = true) ↔
      (check_guess (exampleAnswer.map Char.toLower) exampleAnswer).all
        (fun lr => lr.status == LetterStatus.correct) = true) ∧
    ((exampleWonSession.completed = true ∧ exampleWonSession.won = false) ↔
      ((check_guess (exampleAnswer.map Char.toLower) exampleAnswer).all
        (fun lr => lr.status == LetterStatus.correct) = false ∧
       exampleWonSession.attempts_used = 6)) :=
  submit_guess_completion exampleVocab exampleAnswer newSession exampleAnswer
    exampleWonSession exampleWinResult rfl (by decide) rfl

/-- C9: every session reachable from creation by accepted guesses keeps
`attempts_used` equal to the number of guesses, with one stored feedback
entry per guess. -/
theorem reachable_session_invariant (vg : List (List Char)) (answer : List Char)
    (s : GameSession) (h : Reachable vg answer s) :
    s.attempts_used = s.guesses.length ∧
    s.guess_results.length = s.guesses.length := by
  induction h with
  | start => simp [newSession]
  | step s s' guess r hre hok ih =>
    obtain ⟨hg, ha, hr⟩ := submit_guess_ok_shape vg answer s guess s' r hok
    constructor
    · rw [ha, hg]
      simp [ih.1]
    · rw [hr, hg]
      simp [ih.2]

/-- C9 witness: the invariant holds at the freshly created session. -/
theorem reachable_session_invariant_witness :
    newSession.attempts_used = newSession.guesses.length ∧
    newSession.guess_results.length = newSession.guesses.length :=
  reachable_session_invariant [] [] newSession Reachable.start

theorem toNat_ofNat_of_isValidChar (n : Nat) (h : n.isValidChar) :
    (Char.ofNat n).toNat = n := by
  rw [Char.ofNat, dif_pos h]
  rfl

theorem toLower_toLower (c : Char) : c.toLower.toLower = c.toLower := by
  unfold Char.toLower
  by_cases h : c.toNat ≥ 65 ∧ c.toNat ≤ 90
  · rw [if_pos h]
    have hv : (c.toNat + 32).isValidChar := Or.inl (by omega)
    rw [toNat_ofNat_of_isValidChar _ hv]
    rw [if_neg (by omega)]
  · rw [if_neg h, if_neg h]

theorem map_toLower_idem (g : List Char) :
    (g.map Char.toLower).map Char.toLower = g.map Char.toLower := by
  rw [List.map_map]
  exact List.map_congr_left fun c _ => toLower_toLower c

theorem is_valid_word_toLower (vg : List (List Char)) (g : List Char) :
    is_valid_word vg (g.map Char.toLower) = is_valid_word vg g := by
  unfold is_valid_word
  rw [map_toLower_idem]

/-- C6: a guess that fails the acceptance precondition (length 5, all
characters ASCII-alphabetic, membership in the valid-guess vocabulary) is
rejected with an error; the `Except.error` result carries no updated session,
so `attempts_used` and the guess list of the stored session are unchanged. -/
theorem invalid_guess_rejected (vg : List (List Char)) (answer : List Char)
    (s : GameSession) (guess : List Char)
    (hbad : ¬(guess.length = 5 ∧ (∀ c ∈ guess, isAsciiLetter c = true) ∧
      is_valid_word vg guess = true)) :
    ∃ e, submit_guess_endpoint vg answer s guess = .error e := by
  by_cases hp : guessSubmissionValid guess = true
  · have hp' := hp
    simp only [guessSubmissionValid, Bool.and_eq_true, beq_iff_eq, List.all_eq_true] at hp'
    have hw : is_valid_word vg guess = false := by
      have hnw : ¬ is_valid_word vg guess = true := fun hwt => hbad ⟨hp'.1, hp'.2, hwt⟩
      rwa [Bool.not_eq_true] at hnw
    by_cases hcomp : s.completed = true
    · exact ⟨.alreadyCompleted, by simp [submit_guess_endpoint, submit_guess, hp, hcomp]⟩
    · exact ⟨.invalidWord,
        by simp [submit_guess_endpoint, submit_guess, hp, hcomp, is_valid_word_toLower, hw]⟩
  · exact ⟨.validationRejected, by simp [submit_guess_endpoint, hp]⟩

/-- C6 witness: the guess "zzzzz" is a 5-letter alphabetic string outside the
vocabulary {"crane"}, so submission is rejected with an error. -/
theorem invalid_guess_rejected_witness :
    ∃ e, submit_guess_endpoint [['c', 'r', 'a', 'n', 'e']] ['c', 'r', 'a', 'n', 'e']
      newSession ['z', 'z', 'z', 'z', 'z'] = .error e :=
  invalid_guess_rejected [['c', 'r', 'a', 'n', 'e']] ['c', 'r', 'a', 'n', 'e']
    newSession ['z', 'z', 'z', 'z', 'z'] (by decide)

theorem getD_set_self {α : Type} (l : List α) (i : Nat) (a d : α) (h : i < l.length) :
    (l.set i a).getD i d = a := by
  induction l generalizing i with
  | nil => simp at h
  | cons x xs ih =>
    cases i with
    | zero => rfl
    | succ n =>
      simp only [List.set_cons_succ, List.getD_cons_succ]
      exact ih n (by simpa using h)

theorem getD_set_ne {α : Type} (l : List α) (i j : Nat) (a d : α) (h : i ≠ j) :
    (l.set i a).getD j d = l.getD j d := by
  induction l generalizing i j with
  | nil => rfl
  | cons x xs ih =>
    cases i with
    | zero =>
      cases j with
      | zero => exact absurd rfl h
      | succ m => rfl
    | succ n =>
      cases j with
      | zero => rfl
      | succ m =>
        simp only [List.set_cons_succ, List.getD_cons_succ]
        exact ih n m (by omega)

end SonjaGames

namespace SonjaGames.Crossword

theorem reveal_cell_ok_inv (p : CrosswordDailyPuzzle) (s : CrosswordGameSession)
    (row col : Nat) (letter : String) (s' : CrosswordGameSession)
    (hok : reveal_cell p s row col = .ok (letter, s')) :
    s'.completed = s.completed ∧
    (row, col) ∈ s'.revealed_cells ∧
    ¬(row ≥ p.grid_data.length ∨ col ≥ (p.grid_data.getD row []).length) ∧
    ¬((p.grid_data.getD row []).getD col "" = ".") ∧
    letter = (p.grid_data.getD row []).getD col "" := by
  unfold reveal_cell at hok
  split at hok
  · exact absurd hok (by simp)
  · dsimp only at hok
    split at hok
    · exact absurd hok (by simp)
    · rename_i hbounds
      split at hok
      · exact absurd hok (by simp)
      · rename_i hblack
        by_cases hmem : (row, col) ∉ s.revealed_cells
        · simp only [if_pos hmem] at hok
          by_cases hg : row < s.current_grid.length ∧ col < (s.current_grid.getD row []).length
          · simp only [if_pos hg] at hok
            simp only [Except.ok.injEq, Prod.mk.injEq] at hok
            obtain ⟨hl, hs⟩ := hok
            subst hs
            refine ⟨rfl, by simp, hbounds, hblack, hl.symm⟩
          · simp only [if_neg hg] at hok
            simp only [Except.ok.injEq, Prod.mk.injEq] at hok
            obtain ⟨hl, hs⟩ := hok
            subst hs
            refine ⟨rfl, by simp, hbounds, hblack, hl.symm⟩
        · simp only [if_neg hmem] at hok
          by_cases hg : row < s.current_grid.length ∧ col < (s.current_grid.getD row []).length
          · simp only [if_pos hg] at hok
            simp only [Except.ok.injEq, Prod.mk.injEq] at hok
            obtain ⟨hl, hs⟩ := hok
            subst hs
            refine ⟨rfl, not_not.mp hmem, hbounds, hblack, hl.symm⟩
          · simp only [if_neg hg] at hok
            simp only [Except.ok.injEq, Prod.mk.injEq] at hok
            obtain ⟨hl, hs⟩ := hok
            subst hs
            refine ⟨rfl, not_not.mp hmem, hbounds, hblack, hl.symm⟩

/-- C7: on an active crossword session, revealing a blocked (in-bounds) cell
raises `ValueError` (the `Except.error` result carries no updated session, so
the stored state is unchanged), and a second reveal of the same already
revealed cell leaves both the hint counter and the revealed-cells record
unchanged. -/
theorem reveal_cell_blocked_and_no_double_hint (p : CrosswordDailyPuzzle)
    (s : CrosswordGameSession) (row col : Nat) (hact : s.completed = false) :
    ((row < p.grid_data.length ∧ col < (p.grid_data.getD row []).length ∧
      (p.grid_data.getD row []).getD col "" = ".") →
      reveal_cell p s row col = .error .valueError) ∧
    (∀ letter s₁ letter₂ s₂,
      reveal_cell p s row col = .ok (letter, s₁) →
      reveal_cell p s₁ row col = .ok (letter₂, s₂) →
      s₂.hints_used = s₁.hints_used ∧ s₂.revealed_cells = s₁.revealed_cells) := by
  constructor
  · rintro ⟨hr, hc, hdot⟩
    unfold reveal_cell
    rw [if_neg (by simp [hact])]
    dsimp only
    rw [if_neg (by omega)]
    rw [if_pos hdot]
  · intro letter s₁ letter₂ s₂ hok1 hok2
    obtain ⟨hcom, hmem, hbounds, hblack, -⟩ := reveal_cell_ok_inv p s row col letter s₁ hok1
    unfold reveal_cell at hok2
    rw [hcom] at hok2
    simp only [hact, Bool.false_eq_true, if_false] at hok2
    rw [if_neg hbounds] at hok2
    rw [if_neg hblack] at hok2
    have hmm : ¬((row, col) ∉ s₁.revealed_cells) := not_not_intro hmem
    simp only [if_neg hmm] at hok2
    by_cases hg : row < s₁.current_grid.length ∧ col < (s₁.current_grid.getD row []).length
    · simp only [if_pos hg] at hok2
      simp only [Except.ok.injEq, Prod.mk.injEq] at hok2
      obtain ⟨-, hs⟩ := hok2
      subst hs
      exact ⟨rfl, rfl⟩
    · simp only [if_neg hg] at hok2
      simp only [Except.ok.injEq, Prod.mk.injEq] at hok2
      obtain ⟨-, hs⟩ := hok2
      subst hs
      exact ⟨rfl, rfl⟩

/-- C7 witness: on the fresh session over `examplePuzzle`, revealing the
blocked cell (1, 1) raises `ValueError`, and after revealing cell (0, 0) a
second reveal of (0, 0) changes neither the hint counter nor the
revealed-cells record. -/
theorem reveal_cell_blocked_and_no_double_hint_witness :
    ((1 < examplePuzzle.grid_data.length ∧
      1 < (examplePuzzle.grid_data.getD 1 []).length ∧
      (examplePuzzle.grid_data.getD 1 []).getD 1 "" = ".") →
      reveal_cell examplePuzzle exampleActiveSession 1 1 = .error .valueError) ∧
    (∀ letter s₁ letter₂ s₂,
      reveal_cell examplePuzzle exampleActiveSession 1 1 = .ok (letter, s₁) →
      reveal_cell examplePuzzle s₁ 1 1 = .ok (letter₂, s₂) →
      s₂.hints_used = s₁.hints_used ∧ s₂.revealed_cells = s₁.revealed_cells) :=
  reveal_cell_blocked_and_no_double_hint examplePuzzle exampleActiveSession 1 1 rfl

/-- C10: revealing a non-blocked cell that lies inside the user's grid
returns the solution letter, writes it into the user's grid at exactly
`(row, col)`, and leaves every other cell of the user's grid unchanged (the
puzzle value is immutable in the embedding; only `revealed_cells` and
`hints_used` may additionally change, per C7). -/
theorem reveal_cell_frame (p : CrosswordDailyPuzzle) (s : CrosswordGameSession)
    (row col : Nat) (letter : String) (s' : CrosswordGameSession)
    (hact : s.completed = false)
    (hrow : row < s.current_grid.length)
    (hcol : col < (s.current_grid.getD row []).length)
    (hok : reveal_cell p s row col = .ok (letter, s')) :
    letter = (p.grid_data.getD row []).getD col "" ∧
    userCellAt s'.current_grid row col = letter ∧
    (∀ i j, ¬(i = row ∧ j = col) →
      userCellAt s'.current_grid i j = userCellAt s.current_grid i j) := by
  unfold reveal_cell at hok
  simp only [hact, Bool.false_eq_true, if_false] at hok
  split at hok
  · exact absurd hok (by simp)
  · split at hok
    · exact absurd hok (by simp)
    · have hg : row < s.current_grid.length ∧ col < (s.current_grid.getD row []).length :=
        ⟨hrow, hcol⟩
      by_cases hmem : (row, col) ∉ s.revealed_cells
      · simp only [if_pos hmem] at hok
        simp only [if_pos hg] at hok
        simp only [Except.ok.injEq, Prod.mk.injEq] at hok
        obtain ⟨hl, hs⟩ := hok
        subst hs
        refine ⟨hl.symm, ?_, ?_⟩
        · unfold userCellAt
          dsimp only
          rw [getD_set_self _ _ _ _ hrow, getD_set_self _ _ _ _ hcol, hl]
        · intro i j hij
          unfold userCellAt
          dsimp only
          by_cases hi : i = row
          · subst hi
            have hj : col ≠ j := fun hh => hij ⟨rfl, hh.symm⟩
            rw [getD_set_self _ _ _ _ hrow, getD_set_ne _ _ _ _ _ hj]
          · have hi' : row ≠ i := fun hh => hi hh.symm
            rw [getD_set_ne _ _ _ _ _ hi']
      · simp only [if_neg hmem] at hok
        simp only [if_pos hg] at hok
        simp only [Except.ok.injEq, Prod.mk.injEq] at hok
        obtain ⟨hl, hs⟩ := hok
        subst hs
        refine ⟨hl.symm, ?_, ?_⟩
        · unfold userCellAt
          dsimp only
          rw [getD_set_self _ _ _ _ hrow, getD_set_self _ _ _ _ hcol, hl]
        · intro i j hij
          unfold userCellAt
          dsimp only
          by_cases hi : i = row
          · subst hi
            have hj : col ≠ j := fun hh => hij ⟨rfl, hh.symm⟩
            rw [getD_set_self _ _ _ _ hrow, getD_set_ne _ _ _ _ _ hj]
          · have hi' : row ≠ i := fun hh => hi hh.symm
            rw [getD_set_ne _ _ _ _ _ hi']

/-- C10 witness: revealing cell (0, 0) of the fresh session over
`examplePuzzle` returns "A", writes "A" at (0, 0), and leaves the other cells
unchanged. -/
theorem reveal_cell_frame_witness :
    ("A" : String) = (examplePuzzle.grid_data.getD 0 []).getD 0 "" ∧
    userCellAt exampleRevealedSession.current_grid 0 0 = "A" ∧
    (∀ i j, ¬(i = 0 ∧ j = 0) →
      userCellAt exampleRevealedSession.current_grid i j =
        userCellAt exampleActiveSession.current_grid i j) :=
  reveal_cell_frame examplePuzzle exampleActiveSession 0 0 "A" exampleRevealedSession
    rfl (by decide) (by decide) rfl

/-- C4: `check_answers` never compares blocked (".") solution cells;
`all_correct` is true exactly when every non-blocked cell of the solution grid
matches the user's grid case-insensitively, and every per-word flag (across
and down) equals `all_correct` — all false on any mismatch, all true only on a
full-grid match. -/
theorem check_answers_allornothing (p : CrosswordDailyPuzzle)
    (s : CrosswordGameSession) (r : CheckAnswersResult)
    (hok : check_answers p s = .ok r) :
    (r.all_correct = true ↔
      ∀ i < p.grid_data.length, ∀ j < (p.grid_data.getD i []).length,
        (p.grid_data.getD i []).getD j "" = "." ∨
        pyUpper (userCellAt s.current_grid i j) =
          pyUpper ((p.grid_data.getD i []).getD j "")) ∧
    (∀ q ∈ r.correct_across, q.2 = r.all_correct) ∧
    (∀ q ∈ r.correct_down, q.2 = r.all_correct) := by
  unfold check_answers at hok
  simp only [Except.ok.injEq] at hok
  subst hok
  refine ⟨?_, ?_, ?_⟩
  · simp [all_cells_correct, List.all_eq_true, List.mem_range]
  · rintro q hq
    simp only [List.mem_map] at hq
    obtain ⟨a, -, rfl⟩ := hq
    rfl
  · rintro q hq
    simp only [List.mem_map] at hq
    obtain ⟨a, -, rfl⟩ := hq
    rfl

/-- C4 witness: on the fresh (empty) session over `examplePuzzle`, the
analysis applies with `all_correct = false` and all word flags false. -/
theorem check_answers_allornothing_witness :
    ((check_answers examplePuzzle exampleActiveSession).toOption.getD
        ⟨[], [], false⟩ |>.all_correct) = false ∧
    ((all_cells_correct examplePuzzle.grid_data exampleActiveSession.current_grid = true ↔
      ∀ i < examplePuzzle.grid_data.length,
        ∀ j < (examplePuzzle.grid_data.getD i []).length,
          (examplePuzzle.grid_data.getD i []).getD j "" = "." ∨
          pyUpper (userCellAt exampleActiveSession.current_grid i j) =
            pyUpper ((examplePuzzle.grid_data.getD i []).getD j ""))) :=
  ⟨by decide, by
    have h := check_answers_allornothing examplePuzzle exampleActiveSession
      ⟨[("1", all_cells_correct examplePuzzle.grid_data exampleActiveSession.current_grid)],
       [("1", all_cells_correct examplePuzzle.grid_data exampleActiveSession.current_grid)],
       all_cells_correct examplePuzzle.grid_data exampleActiveSession.current_grid⟩ rfl
    exact h.1⟩

/-- C3 counterexample: crossword `check_answers` (the "check" operation the
claim covers) does NOT raise on a completed session — on the completed
session `exampleDoneSession` it returns an ordinary `.ok` result instead of a
`sessionAlreadyCompleted` error, so the claim as stated is false. -/
theorem check_answers_completed_session_no_error :
    exampleDoneSession.completed = true ∧
    check_answers examplePuzzle exampleDoneSession =
      .ok { correct_across := [("1", false)]
            correct_down := [("1", false)]
            all_correct := false } ∧
    check_answers examplePuzzle exampleDoneSession ≠
      .error .sessionAlreadyCompleted :=
  ⟨rfl, rfl, by simp [check_answers]⟩

/-- C3 (amended): on a completed session, Wordle guess submission and the
crossword grid-update, reveal-cell, reveal-all, check-cell and
complete-session operations all raise an already-completed error (the
`Except.error` result carries no updated session, so the stored state is
unchanged); crossword `check_answers`, however, has no completed-session
guard and succeeds. -/
theorem completed_session_mutations_rejected
    (vg : List (List Char)) (answerW : List Char) (sw : Wordle.GameSession)
    (guess : List Char) (p : CrosswordDailyPuzzle) (s : CrosswordGameSession)
    (g : List (List String)) (row col : Nat) (letter : String) (t : Nat)
    (hw : sw.completed = true) (hc : s.completed = true) :
    Wordle.submit_guess vg answerW sw guess = .error .alreadyCompleted ∧
    update_session s g = .error .sessionAlreadyCompleted ∧
    reveal_cell p s row col = .error .sessionAlreadyCompleted ∧
    reveal_all p s = .error .sessionAlreadyCompleted ∧
    check_cell p s row col letter = .error .sessionAlreadyCompleted ∧
    complete_session s t = .error .sessionAlreadyCompleted ∧
    (∃ r, check_answers p s = .ok r) := by
  refine ⟨?_, ?_, ?_, ?_, ?_, ?_, ?_⟩
  · simp [Wordle.submit_guess, hw]
  · simp [update_session, hc]
  · simp [reveal_cell, hc]
  · simp [reveal_all, hc]
  · simp [check_cell, hc]
  · simp [complete_session, hc]
  · exact ⟨_, rfl⟩

/-- C3 witness: instantiation at the completed sessions
`exampleDoneSession` (crossword) and a completed Wordle session. -/
theorem completed_session_mutations_rejected_witness :
    Wordle.submit_guess Wordle.exampleVocab Wordle.exampleAnswer
      Wordle.exampleWonSession Wordle.exampleAnswer = .error .alreadyCompleted ∧
    update_session exampleDoneSession [[""]] = .error .sessionAlreadyCompleted ∧
    reveal_cell examplePuzzle exampleDoneSession 0 0 = .error .sessionAlreadyCompleted ∧
    reveal_all examplePuzzle exampleDoneSession = .error .sessionAlreadyCompleted ∧
    check_cell examplePuzzle exampleDoneSession 0 0 "A" = .error .sessionAlreadyCompleted ∧
    complete_session exampleDoneSession 7 = .error .sessionAlreadyCompleted ∧
    (∃ r, check_answers examplePuzzle exampleDoneSession = .ok r) :=
  completed_session_mutations_rejected Wordle.exampleVocab Wordle.exampleAnswer
    Wordle.exampleWonSession Wordle.exampleAnswer examplePuzzle exampleDoneSession
    [[""]] 0 0 "A" 7 rfl rfl

end SonjaGames.Crossword

namespace SonjaGames.Wordle

/-- C5: daily-word selection is deterministic (a pure function of the date,
pool and secret: repeated calls return the same word) and follows Variant A:
the index into the answers pool is the integer value of the first 8 hex
characters of SHA-256 of the ISO date string, a ":" separator and the secret,
taken modulo the pool size (in particular the index is always within the
pool). -/
theorem get_daily_word_deterministic_variantA (answers : List (List Char))
    (secret : List Char) (d : PyDate) (h : answers ≠ []) :
    get_daily_word answers secret d = get_daily_word answers secret d ∧
    get_daily_word answers secret d = dailyAnswerVariantA answers secret d ∧
    SHA256.hexToNat
        ((SHA256.hexdigest
          (SHA256.sha256 (strBytes (isoformat d ++ ':' :: secret)))).take 8) %
      answers.length < answers.length :=
  ⟨rfl, rfl, Nat.mod_lt _ (List.length_pos.mpr h)⟩

/-- C5 witness: instantiation at a one-word pool, the secret "s" and the date
2025-01-02. -/
theorem get_daily_word_deterministic_variantA_witness :
    get_daily_word [['a']] ['s'] ⟨2025, 1, 2⟩ =
      get_daily_word [['a']] ['s'] ⟨2025, 1, 2⟩ ∧
    get_daily_word [['a']] ['s'] ⟨2025, 1, 2⟩ =
      dailyAnswerVariantA [['a']] ['s'] ⟨2025, 1, 2⟩ ∧
    SHA256.hexToNat
        ((SHA256.hexdigest
          (SHA256.sha256 (strBytes (isoformat ⟨2025, 1, 2⟩ ++ ':' :: ['s'])))).take 8) %
      ([['a']] : List (List Char)).length < ([['a']] : List (List Char)).length :=
  get_daily_word_deterministic_variantA [['a']] ['s'] ⟨2025, 1, 2⟩ (by simp)

/-- C8: the statistics aggregator returns total=0, win_percentage=0 and
current_streak=0 (and max_streak=0, empty distribution) for a user with no
completed sessions; current_streak=3 for three consecutive daily wins ending
today, and also for three consecutive daily wins ending yesterday; and
max_streak=1 for a win, a gap day, then a win. -/
theorem user_stats_scenarios :
    get_user_stats 738500 [] =
      { total_games := 0, wins := 0, losses := 0, win_percentage := 0,
        current_streak := 0, max_streak := 0,
        guess_distribution := [0, 0, 0, 0, 0, 0] } ∧
    (get_user_stats 738500
      [⟨738498, true, 3⟩, ⟨738499, true, 3⟩, ⟨738500, true, 3⟩]).current_streak = 3 ∧
    (get_user_stats 738500
      [⟨738497, true, 3⟩, ⟨738498, true, 3⟩, ⟨738499, true, 3⟩]).current_streak = 3 ∧
    (get_user_stats 738500 [⟨738496, true, 3⟩, ⟨738498, true, 3⟩]).max_streak = 1 := by
  refine ⟨by decide, by decide, by decide, by decide⟩

end SonjaGames.Wordle
